import Mathlib

/-
Verification of the TDOA localization engine of the opensoundscape repository
(file opensoundscape/localization.py).

The numeric domain of the embedding is the rationals: the Python code computes
with float64 values, and every claim checked here is either a statement about
exact arithmetic (the spec asks for exactness over exact arithmetic), about
control flow, or about discrete data, so the embedding uses exact rational
arithmetic.  The two places where the source produces irrational values
(square roots inside residual computation) are modelled by an explicit
square-root oracle parameter standing for the floating point sqrt routine.
All definitions are executable by kernel reduction.
-/

open Matrix

/-! ## Linear algebra preliminaries

The source calls numpy routines (matrix inverse, least squares) that Mathlib
only provides noncomputably.  We implement an executable determinant on
list-of-rows matrices by Laplace expansion and obtain the inverse and the
least-squares solution through the Cramer rule; bridge lemmas below relate
them to the Mathlib notions. -/

/-- Determinant of an n-by-n matrix given as a list of rows, by Laplace
expansion along the first row.  The first argument is the dimension, used as
structural fuel so that the definition is executable by kernel reduction. -/
def detN : ℕ → List (List ℚ) → ℚ
  | 0, _ => 1
  | n + 1, rows =>
      match rows with
      | [] => 1
      | r :: rest =>
          ((List.range r.length).map
            (fun j => (-1 : ℚ) ^ j * r.getD j 0 *
              detN n (rest.map (fun row => row.eraseIdx j)))).sum

/-- Determinant of a square list-of-rows matrix. -/
def detL (rows : List (List ℚ)) : ℚ := detN rows.length rows

/-- Rows-of-lists representation of a Fin-indexed matrix. -/
def rowsOf {m k : ℕ} (A : Matrix (Fin m) (Fin k) ℚ) : List (List ℚ) :=
  List.ofFn fun i => List.ofFn fun j => A i j

/-- Executable solution of the normal equations of the least-squares problem
`A x = w`, computed by the Cramer rule.  This models `np.linalg.lstsq`, which
returns the unique least-squares solution whenever `A` has full column rank
(equivalently, when `(transpose A * A).det` is nonzero); the embedding is only
relied upon under that hypothesis. -/
def lstsqVec {m k : ℕ} (A : Matrix (Fin m) (Fin k) ℚ) (w : Fin m → ℚ) : Fin k → ℚ :=
  fun i =>
    detL (rowsOf ((Aᵀ * A).updateColumn i (Aᵀ.mulVec w))) / detL (rowsOf (Aᵀ * A))

/-- Executable matrix inverse via the Cramer rule: entry (i, j) of the inverse
is the cofactor of entry (j, i) divided by the determinant.  Models
`np.linalg.inv` on an exactly invertible matrix; only used after the source
has checked for singularity. -/
def matInvL {k : ℕ} (M : Matrix (Fin k) (Fin k) ℚ) : Matrix (Fin k) (Fin k) ℚ :=
  fun i j => detL (rowsOf (M.updateColumn i (Pi.single j 1))) / detL (rowsOf M)

/-! ## Python value model

The source occasionally manipulates values whose shape matters to the claims:
float NaN, nested lists, and exception objects used as ordinary values.  The
following small model of Python runtime values captures exactly what the
claims need. -/

/-- A Python float: either an exact numeric value or NaN. -/
inductive PyNum where
  | num (q : ℚ)
  | nan
deriving DecidableEq

/-- A Python value: a float scalar or a list of values. -/
inductive PyVal where
  | num (x : PyNum)
  | arr (l : List PyVal)

/-- Exceptions raised by the localization module.  A raised exception is
modelled as an `Except.error` carrying one of these. -/
inductive PyExc where
  | valueError (msg : String)
  | userWarning (msg : String)
  | assertionError (msg : String)
  | insufficientReceivers (msg : String)
deriving DecidableEq

/-! ## Constants and small numeric helpers from the source -/

/-- Default value of the module-level constant SPEED_OF_SOUND (m/s). -/
def SPEED_OF_SOUND : ℚ := 343

/-- Exact semantics of `np.isclose(x, 0)` with the numpy defaults
rtol=1e-5, atol=1e-8: true iff the absolute value of x is at most 1e-8
(the rtol term vanishes because the reference value is 0). -/
def npIsCloseZero (x : ℚ) : Bool := |x| ≤ 1 / 100000000

/-- Squared Euclidean distance between two coordinate lists, the square of
`np.linalg.norm(np.array(a) - np.array(b))`. -/
def sqDistL (a b : List ℚ) : ℚ :=
  ((a.zip b).map (fun p => (p.1 - p.2) ^ 2)).sum

/-- Exact decision of the comparison `np.linalg.norm(d) <= r` given the
squared norm `s` of `d`: the square root of a nonnegative `s` is at most `r`
iff `r` is nonnegative and `s` is at most `r * r`. -/
def sqrtLeQ (s r : ℚ) : Bool := decide (0 ≤ r) && decide (s ≤ r * r)

/-- Whether the string `sub` occurs as a contiguous substring of `s`. -/
def containsSubstr (s sub : String) : Bool :=
  s.data.tails.any fun t => sub.data.isPrefixOf t

/-! ## lorentz_ip (source lines 676-705)

The source computes the Lorentz inner product for vectors of length 3 or 4,
and for every other length executes `return ValueError(...)`: it RETURNS the
exception object as an ordinary value instead of raising it.  The return type
below has a constructor for that returned exception object. -/

/-- Result of `lorentz_ip`: either a number, or the `ValueError` object that
the function returns (without raising) when the length is not 3 or 4. -/
inductive LorentzOut where
  | num (q : ℚ)
  | valueErrorObject (msg : String)
deriving DecidableEq

/-- Embedding of `lorentz_ip(u, v=None)`.  For two length-3 vectors the
coefficients are [1, 1, -1]; for two length-4 vectors they are [1, 1, 1, -1];
in every other case the function returns (not raises) a ValueError object. -/
def lorentz_ip (u : List ℚ) (v? : Option (List ℚ)) : LorentzOut :=
  let v := v?.getD u
  if u.length = 3 ∧ v.length = 3 then
    let c : List ℚ := [1, 1, -1]
    .num (((List.range u.length).map (fun i => u.getD i 0 * v.getD i 0 * c.getD i 0)).sum)
  else if u.length = 4 ∧ v.length = 4 then
    let c : List ℚ := [1, 1, 1, -1]
    .num (((List.range u.length).map (fun i => u.getD i 0 * v.getD i 0 * c.getD i 0)).sum)
  else
    .valueErrorObject "length of x should be 3 or 4, was"

/-- Numeric projection of `lorentz_ip`, used by the soundfinder embedding at
call sites where the source guarantees the length is 3 or 4 (rows of B and
solution vectors have length dim+1 with dim asserted in {2, 3}), so the
ValueError-object case is unreachable there. -/
def lorentzVal (u : List ℚ) (v? : Option (List ℚ)) : ℚ :=
  match lorentz_ip u v? with
  | .num q => q
  | .valueErrorObject _ => 0

/-! ## gillette_localize (source lines 935-997) -/

/-- Error message raised by `gillette_localize` when no arrival time is
numerically indistinguishable from zero (source lines 957-961). -/
def gilletteRefErrMsg : String :=
  "Arrival times must be relative to a reference receiver. Therefore one arrival" ++
  " time must be 0 (corresponding to arrival at the reference receiver) None of your " ++
  "TDOAs are zero. Please check your arrival_times."

/-- Message of the ValueError numpy raises for `np.min` of an empty array. -/
def npMinEmptyMsg : String :=
  "zero-size array to reduction operation minimum which has no identity"

/-- Embedding of `np.argmin(abs(arrival_times))`: the first index attaining
the minimum absolute value. -/
def gilletteRef {n : ℕ} (t : Fin (n + 1) → ℚ) : Fin (n + 1) :=
  (List.finRange (n + 1)).foldl (fun best i => if |t i| < |t best| then i else best) 0

/-- Core of `gillette_localize` after the reference check: reorder receivers
and tdoas with `np.roll` so the reference receiver (argmin of absolute
arrival time) is first, build the Gillette-Silverman system
`A[m, d] = pos0[d] - posm[d]` for spatial columns, `A[m, dim] = tdoa_m * c`,
`w[m] = 0.5 * (tdoa_m * c + |pos0|^2 - |posm|^2)` (source builds the columns
of A in a loop over column indices and w from dmx, X02, XM2; note the source
uses dmx unsquared in w), and return the full least-squares solution vector
(position components and pseudorange component). -/
def gillette_core {n dim : ℕ} (pos : Fin (n + 1) → Fin dim → ℚ)
    (t : Fin (n + 1) → ℚ) (c : ℚ) : Fin (dim + 1) → ℚ :=
  let ref := gilletteRef t
  let ordered_receivers : Fin (n + 1) → Fin dim → ℚ := fun i => pos (i + ref)
  let ordered_tdoas : Fin (n + 1) → ℚ := fun i => t (i + ref)
  let A : Matrix (Fin n) (Fin (dim + 1)) ℚ := fun m j =>
    if h : (j : ℕ) < dim then
      ordered_receivers 0 ⟨j, h⟩ - ordered_receivers m.succ ⟨j, h⟩
    else
      ordered_tdoas m.succ * c
  let X02 : ℚ := ∑ j, ordered_receivers 0 j ^ 2
  let vec_w : Fin n → ℚ := fun m =>
    1 / 2 * (ordered_tdoas m.succ * c + X02 - ∑ j, ordered_receivers m.succ j ^ 2)
  lstsqVec A vec_w

/-- The receiver-positions array as an indexed function for the gillette
solver (k rows, one column per spatial dimension of the first row). -/
def G_posF (receiver_positions : List (List ℚ)) (k : ℕ) :
    Fin k → Fin (receiver_positions.getD 0 []).length → ℚ :=
  fun i j => (receiver_positions.getD (i : ℕ) []).getD (j : ℕ) 0

/-- The arrival-times array as an indexed function. -/
def G_tF (arrival_times : List ℚ) (k : ℕ) : Fin k → ℚ :=
  fun i => arrival_times.getD (i : ℕ) 0

/-- Embedding of `gillette_localize(receiver_positions, arrival_times,
speed_of_sound)` continued: raises ValueError when the minimum absolute
arrival time is not close to zero
(`np.isclose(np.min(np.abs(arrival_times)), 0)`), otherwise returns the
first `dim` components of the least-squares solution. -/
def gillette_localize (receiver_positions : List (List ℚ))
    (arrival_times : List ℚ) (speed_of_sound : ℚ) : Except PyExc (List ℚ) :=
  match arrival_times with
  | [] => .error (.valueError npMinEmptyMsg)
  | t0 :: ts =>
      if npIsCloseZero ((ts.map (fun x => |x|)).foldl min |t0|) then
        .ok ((List.ofFn (gillette_core
          (G_posF receiver_positions (ts.length + 1))
          (G_tF (t0 :: ts) (ts.length + 1))
          speed_of_sound)).take (receiver_positions.getD 0 []).length)
      else .error (.valueError gilletteRefErrMsg)

/-! ## Specification-side description of the Gillette system

The following two definitions are written from the words of the spec
(section 4.3, Gillette-Silverman steps 2-3), to be compared with the
construction performed by the code: after reordering receivers and tdoas so
the (numerically) zero-delay entry is first, the matrix has
`A[m,d] = pos0[d] - posm[d]` for each spatial dimension `d` and final column
`A[m,dim] = tdoa_m * speedOfSound`, and
`w[m] = 0.5*(tdoa_m*speedOfSound + |pos0|^2 - |posm|^2)`. -/

/-- The system matrix of the spec: rows indexed by the non-reference
receivers in reordered order. -/
def specGilletteA {n dim : ℕ} (pos : Fin (n + 1) → Fin dim → ℚ)
    (t : Fin (n + 1) → ℚ) (c : ℚ) : Matrix (Fin n) (Fin (dim + 1)) ℚ :=
  let ref := gilletteRef t
  fun m j =>
    if h : (j : ℕ) < dim then
      pos (0 + ref) ⟨j, h⟩ - pos (m.succ + ref) ⟨j, h⟩
    else
      t (m.succ + ref) * c

/-- The right-hand side of the spec. -/
def specGilletteW {n dim : ℕ} (pos : Fin (n + 1) → Fin dim → ℚ)
    (t : Fin (n + 1) → ℚ) (c : ℚ) : Fin n → ℚ :=
  let ref := gilletteRef t
  fun m =>
    1 / 2 * (t (m.succ + ref) * c
      + (∑ j, pos (0 + ref) j ^ 2) - ∑ j, pos (m.succ + ref) j ^ 2)

/-! ## soundfinder_localize (source lines 749-932)

The embedding covers the function from its entry down to the computation of
the discriminant: the assert on the dimension, the optional centering, the
matrix B, the vector a, the inversion of Bᵀ·B with the singular-matrix
early return `[[np.nan]] * dim`, the pseudoinverse B⁺, the quadratic
coefficients cA, cB, cC and the clamped discriminant.  The remaining lines
(square root of the discriminant, the two candidate solutions and the choice
between them) produce irrational values and are not needed by any claim; the
`proceed` constructor below carries the full state of the computation at that
frontier. -/

/-- Outcome of the embedded part of soundfinder: either the value returned on
the singular-matrix branch, or the state of the computation just before the
square root of the discriminant is taken. -/
inductive SFRet where
  | singular (v : PyVal)
  | proceed (cA cB cC disc : ℚ) (negDiscWarning : Bool)
      (Bplus : List (List ℚ)) (Bplus_a Bplus_e : List ℚ)

/-- Receiver positions after the optional centering step
(`receiver_positions - np.mean(receiver_positions, 0)` when center=True). -/
def SF_centered {n dim : ℕ} (pos : Fin n → Fin dim → ℚ) (center : Bool) :
    Fin n → Fin dim → ℚ :=
  if center then fun i j => pos i j - (∑ k, pos k j) / (n : ℚ) else pos

/-- The matrix B of soundfinder: position columns concatenated with the
pseudorange column `rho = arrival_times * (-1 * speed_of_sound)`. -/
def SF_B {n dim : ℕ} (pos : Fin n → Fin dim → ℚ) (t : Fin n → ℚ) (c : ℚ)
    (center : Bool) : Matrix (Fin n) (Fin (dim + 1)) ℚ :=
  fun i j =>
    if h : (j : ℕ) < dim then SF_centered pos center i ⟨j, h⟩
    else t i * (-1 * c)

/-- The matrix `B.T * B` that soundfinder inverts. -/
def SF_toInvert {n dim : ℕ} (pos : Fin n → Fin dim → ℚ) (t : Fin n → ℚ)
    (c : ℚ) (center : Bool) : Matrix (Fin (dim + 1)) (Fin (dim + 1)) ℚ :=
  (SF_B pos t c center)ᵀ * SF_B pos t c center

/-- Embedding of soundfinder down to the discriminant (see section comment).
The singular branch returns the Python value `[[np.nan]] * dim`: a list of
`dim` copies of the one-element list containing NaN. -/
def soundfinder_core {n dim : ℕ} (pos : Fin n → Fin dim → ℚ) (t : Fin n → ℚ)
    (c : ℚ) (center : Bool) : Except PyExc SFRet :=
  if dim = 2 ∨ dim = 3 then
    let B := SF_B pos t c center
    let a : Fin n → ℚ := fun i => 1 / 2 * lorentzVal (List.ofFn fun j => B i j) none
    let e : Fin n → ℚ := fun _ => 1
    let to_invert := SF_toInvert pos t c center
    if detL (rowsOf to_invert) = 0 then
      .ok (.singular (PyVal.arr (List.replicate dim (PyVal.arr [PyVal.num PyNum.nan]))))
    else
      let Bplus := matInvL to_invert * Bᵀ
      let Bplus_a := Bplus.mulVec a
      let Bplus_e := Bplus.mulVec e
      let cA := lorentzVal (List.ofFn Bplus_e) none
      let cB := 2 * (lorentzVal (List.ofFn Bplus_e) (some (List.ofFn Bplus_a)) - 1)
      let cC := lorentzVal (List.ofFn Bplus_a) none
      let disc0 := cB ^ 2 - 4 * cA * cC
      .ok (.proceed cA cB cC (if disc0 < 0 then 0 else disc0) (decide (disc0 < 0))
        (rowsOf Bplus) (List.ofFn Bplus_a) (List.ofFn Bplus_e))
  else
    .error (.assertionError "localization only works in 2 or 3 dimensions")

/-- Number of spatial dimensions, read off the shape of the positions array
(`receiver_positions.shape[1]`). -/
def sfDim (receiver_positions : List (List ℚ)) : ℕ :=
  (receiver_positions.getD 0 []).length

/-- The receiver-positions array as an indexed function. -/
def SF_posF (receiver_positions : List (List ℚ)) :
    Fin receiver_positions.length → Fin (sfDim receiver_positions) → ℚ :=
  fun i j => (receiver_positions.getD (i : ℕ) []).getD (j : ℕ) 0

/-- The arrival-times array as an indexed function. -/
def SF_tF (receiver_positions : List (List ℚ)) (arrival_times : List ℚ) :
    Fin receiver_positions.length → ℚ :=
  fun i => arrival_times.getD (i : ℕ) 0

/-- Embedding of `soundfinder_localize(receiver_positions, arrival_times,
speed_of_sound, invert_alg="gps", center, pseudo=True)` on list inputs, down
to the discriminant computation. -/
def soundfinder_localize (receiver_positions : List (List ℚ))
    (arrival_times : List ℚ) (speed_of_sound : ℚ) (center : Bool) :
    Except PyExc SFRet :=
  soundfinder_core (SF_posF receiver_positions)
    (SF_tF receiver_positions arrival_times) speed_of_sound center

/-! ## calculate_tdoa_residuals (source lines 1000-1053) and SpatialEvent

The residual computation takes square roots of squared distances
(`np.linalg.norm`); those values are irrational in general, so the embedding
takes the floating point square-root routine as an explicit oracle parameter
`fsqrt`. -/

/-- Embedding of `calculate_tdoa_residuals(receiver_positions, tdoas,
position_estimate, speed_of_sound)`: distance of each receiver to the
estimate, travel times, expected tdoas relative to the first receiver, and
the residuals converted to meters. -/
def calculate_tdoa_residuals (fsqrt : ℚ → ℚ) (receiver_positions : List (List ℚ))
    (tdoas : List ℚ) (position_estimate : List ℚ) (speed_of_sound : ℚ) : List ℚ :=
  let distances := receiver_positions.map fun r => fsqrt (sqDistL r position_estimate)
  let travel_times := distances.map (· / speed_of_sound)
  let expected_tdoas := travel_times.map (· - travel_times.getD 0 0)
  let time_residuals := (expected_tdoas.zip tdoas).map fun p => p.1 - p.2
  time_residuals.map (· * speed_of_sound)

/-- State of a SpatialEvent on which `estimate_delays` has already run, so
that `tdoas` and `cc_maxs` are populated (running `estimate_delays` itself
performs audio I/O and generalized cross correlation, which are external to
this module).  The optional fields are those still unset at that point. -/
structure SpatialEventState where
  receiver_files : List String
  receiver_positions : List (List ℚ)
  tdoas : List ℚ
  cc_maxs : List ℚ
  cc_threshold : Option ℚ
  position_estimate : Option (List ℚ)
  distance_residuals : Option (List ℚ)
  residual_rms : Option ℚ
deriving DecidableEq

/-- Numpy boolean-mask indexing `xs[mask]`. -/
def boolMask {α : Type} (mask : List Bool) (xs : List α) : List α :=
  ((mask.zip xs).filter (fun p => p.1)).map (fun p => p.2)

/-- Message of the InsufficientReceiversError raised by `estimate_location`
(source lines 149-152). -/
def insufficientMsg (found min_n : ℕ) : String :=
  s!"Number of tdoas exceeding cc threshold ({found} was fewer than min_n_receivers ({min_n})"

/-- Embedding of `SpatialEvent.estimate_location(algorithm, cc_threshold,
min_n_receivers, speed_of_sound)` on a state with delays already estimated.
The solver selected by the `algorithm` string is passed as the function
`locFn` (the source dispatches through `localize()`); `fsqrt` is the floating
square-root oracle used by the residual computation.  The returned pair is
the event state after the call (unchanged if an exception was raised) and
either the position estimate or the raised exception. -/
def estimate_location (locFn : List (List ℚ) → List ℚ → ℚ → Except PyExc (List ℚ))
    (fsqrt : ℚ → ℚ) (ev : SpatialEventState) (cc_threshold : Option ℚ)
    (min_n_receivers : ℕ) (speed_of_sound : ℚ) :
    SpatialEventState × Except PyExc (List ℚ) :=
  let θ? := match cc_threshold with
    | none => ev.cc_threshold
    | some θ => some θ
  let mask := match θ? with
    | none => ev.cc_maxs.map fun _ => true
    | some θ => ev.cc_maxs.map fun m => decide (θ < m)
  let tdoas := boolMask mask ev.tdoas
  let positions := boolMask mask ev.receiver_positions
  if tdoas.length < min_n_receivers then
    (ev, .error (.insufficientReceivers (insufficientMsg tdoas.length min_n_receivers)))
  else
    match locFn positions tdoas speed_of_sound with
    | .error e => (ev, .error e)
    | .ok pos =>
        let residuals := calculate_tdoa_residuals fsqrt ev.receiver_positions ev.tdoas
          pos speed_of_sound
        let rms := fsqrt (((residuals.map fun x => x ^ 2).sum) / (residuals.length : ℚ))
        ({ ev with
            position_estimate := some pos
            distance_residuals := some residuals
            residual_rms := some rms }, .ok pos)

/-! ## SynchronizedRecorderArray (source lines 288-655) -/

/-- One row of the detections table: multi-index (file, start_time, end_time)
and the 0/1 detection scores, one per class column. -/
structure DetRow where
  file : String
  start_time : ℚ
  end_time : ℚ
  values : List ℚ
deriving DecidableEq

/-- The detections table: class column names and rows. -/
structure Detections where
  columns : List String
  rows : List DetRow
deriving DecidableEq

/-- The static fields of a SpatialEvent as built by
`create_candidate_events` (the derived fields are all unset at creation). -/
structure SpatialEventData where
  receiver_files : List String
  receiver_positions : List (List ℚ)
  start_time : ℚ
  duration : ℚ
  class_name : String
deriving DecidableEq

/-- First-occurrence deduplication with an accumulator of already seen
elements; structural recursion keeps it kernel-reducible. -/
def uniqueFirstAux {α : Type} [BEq α] : List α → List α → List α
  | [], _ => []
  | a :: as, seen =>
      if seen.contains a then uniqueFirstAux as seen
      else a :: uniqueFirstAux as (a :: seen)

/-- Semantics of `pandas.unique`: the distinct elements in order of first
occurrence. -/
def uniqueFirst {α : Type} [BEq α] (l : List α) : List α := uniqueFirstAux l []

/-- Embedding of `make_nearby_files_dict(r_max)`: for each file of
`file_coords` (a key for each row, in order), the list of the other files
whose receiver lies within Euclidean distance `r_max`.  `df.drop([aru])`
removes every row carrying that index label.  `nearbyEntry` computes the
value stored for one key. -/
def nearbyEntry (file_coords : List (String × List ℚ)) (r_max : ℚ)
    (aru : String × List ℚ) : List String :=
  let other_receivers := file_coords.filter fun p => p.1 != aru.1
  (other_receivers.filter fun p => sqrtLeQ (sqDistL p.2 aru.2) r_max).map Prod.fst

/-- Continuation of `make_nearby_files_dict`: one dictionary entry per row of
file_coords, in order. -/
def make_nearby_files_dict (file_coords : List (String × List ℚ)) (r_max : ℚ) :
    List (String × List String) :=
  file_coords.map fun aru => (aru.1, nearbyEntry file_coords r_max aru)

/-- Embedding of `check_files_missing_coordinates(detections)`: the files of
the detections table (first-occurrence order, as pandas unique) that have no
row in `file_coords`. -/
def check_files_missing_coordinates (file_coords : List (String × List ℚ))
    (detections : Detections) : List String :=
  (uniqueFirst (detections.rows.map fun r => r.file)).filter
    fun f => !((file_coords.map Prod.fst).contains f)

/-- Insertion of a value into a sorted list, ascending. -/
def insertSortedQ (x : ℚ) : List ℚ → List ℚ
  | [] => [x]
  | y :: ys => if x ≤ y then x :: y :: ys else y :: insertSortedQ x ys

/-- Insertion sort, ascending; models the sorted group keys of a pandas
groupby. -/
def sortQ (l : List ℚ) : List ℚ := l.foldr insertSortedQ []

/-- Embedding of `create_candidate_events(detections, min_n_receivers,
max_receiver_dist)`: for each class column, for each distinct clip start time
(in ascending order, as pandas groupby iterates), for each file with a
detection (as reference receiver, in first-occurrence order), if enough
nearby files also hold detections, emit a SpatialEvent whose receiver list is
the reference followed by the nearby detecting files. -/
def create_candidate_events (file_coords : List (String × List ℚ))
    (detections : Detections) (min_n_receivers : ℕ) (max_receiver_dist : ℚ) :
    List SpatialEventData :=
  let nearby_files_dict := make_nearby_files_dict file_coords max_receiver_dist
  detections.columns.enum.flatMap fun ci =>
    let det_cls := detections.rows.filter fun row => decide (0 < row.values.getD ci.1 0)
    (sortQ (uniqueFirst (det_cls.map fun r => r.start_time))).flatMap fun time_i =>
      let dets_at_time_i := det_cls.filter fun row => row.start_time == time_i
      let files_w_dets := uniqueFirst (dets_at_time_i.map fun r => r.file)
      files_w_dets.filterMap fun ref_file =>
        let close_receivers := (nearby_files_dict.lookup ref_file).getD []
        let close_det_files := files_w_dets.filter fun f => close_receivers.contains f
        if min_n_receivers ≤ close_det_files.length + 1 then
          let receiver_files := ref_file :: close_det_files
          let clip_end :=
            (((dets_at_time_i.filter fun row => row.file == ref_file).map
              fun r => r.end_time).getD 0 0)
          some {
            receiver_files := receiver_files
            receiver_positions := receiver_files.map fun r =>
              ((file_coords.filter fun p => p.1 == r).map Prod.snd).getD 0 []
            start_time := time_i
            duration := clip_end - time_i
            class_name := ci.2 }
        else none

/-- Error message of the UserWarning raised by `localize_detections` when
files are missing coordinates (source lines 452-456); the message is a fixed
string that does not mention the offending files. -/
def missingCoordsMsg : String :=
  "WARNING: Not all audio files have corresponding coordinates in self.file_coords." ++
  "Check file_coords.index contains each file in detections.index. " ++
  "Use self.check_files_missing_coordinates() for list of files. "

/-- The per-event loop of `localize_detections` (source lines 480-517).  The
per-event work (estimate_delays followed by estimate_location) depends on the
audio files, which are external input; it is supplied as the oracle
`event_outcome`, returning either the residual_rms of the event after
successful position estimation or the exception raised.  Only
InsufficientReceiversError is caught (sending the event to the unlocalized
list); any other exception propagates and aborts the run.  An event that
completes estimation is localized iff its residual_rms is strictly below the
residual threshold (source line 513 uses `<`). -/
def localize_loop (residual_threshold : ℚ)
    (event_outcome : SpatialEventData → Except PyExc ℚ) :
    List SpatialEventData →
    Except PyExc (List SpatialEventData × List SpatialEventData)
  | [] => .ok ([], [])
  | ev :: rest =>
      match event_outcome ev with
      | .error (.insufficientReceivers _) =>
          (localize_loop residual_threshold event_outcome rest).map
            fun p => (p.1, ev :: p.2)
      | .error e => .error e
      | .ok residual_rms =>
          if residual_rms < residual_threshold then
            (localize_loop residual_threshold event_outcome rest).map
              fun p => (ev :: p.1, p.2)
          else
            (localize_loop residual_threshold event_outcome rest).map
              fun p => (p.1, ev :: p.2)

/-- Embedding of `localize_detections`: first the missing-coordinates check
(raising UserWarning with a fixed message when any detection file lacks
coordinates), then candidate event creation, then the per-event loop.  The
parameters not used before the per-event work (cc threshold, filter, max
delay, bandpass ranges) act only through the `event_outcome` oracle. -/
def localize_detections (file_coords : List (String × List ℚ))
    (detections : Detections) (max_receiver_dist : ℚ) (min_n_receivers : ℕ)
    (residual_threshold : ℚ)
    (event_outcome : SpatialEventData → Except PyExc ℚ) :
    Except PyExc (List SpatialEventData × List SpatialEventData) :=
  if 0 < (check_files_missing_coordinates file_coords detections).length then
    .error (.userWarning missingCoordsMsg)
  else
    localize_loop residual_threshold event_outcome
      (create_candidate_events file_coords detections min_n_receivers max_receiver_dist)

/-! ## Bridge lemmas for the executable linear algebra -/

theorem getD_ofFn {α : Type} {n : ℕ} (f : Fin n → α) (d : α) (j : Fin n) :
    (List.ofFn f).getD (j : ℕ) d = f j := by
  have h : (j : ℕ) < (List.ofFn f).length := by simp [j.isLt]
  rw [List.getD_eq_getElem _ _ h, List.getElem_ofFn]

theorem eraseIdx_ofFn {α : Type} {n : ℕ} (g : Fin (n + 1) → α) (j : Fin (n + 1)) :
    (List.ofFn g).eraseIdx (j : ℕ) = List.ofFn (fun k : Fin n => g (j.succAbove k)) := by
  induction n with
  | zero =>
      rw [Fin.eq_zero j]
      simp [List.ofFn_succ]
  | succ n ih =>
      rcases Fin.eq_zero_or_eq_succ j with hj | ⟨j', rfl⟩
      · subst hj
        simp [List.ofFn_succ]
      · rw [List.ofFn_succ, Fin.val_succ, List.eraseIdx_cons_succ, ih (fun k => g k.succ) j']
        rw [List.ofFn_succ (fun i => g (j'.succ.succAbove i))]
        have h0 : j'.succ.succAbove 0 = 0 := Fin.succ_succAbove_zero j'
        have htail : (fun k : Fin n => g ((j'.succAbove k).succ))
            = fun i : Fin n => g (j'.succ.succAbove i.succ) := by
          funext k
          rw [Fin.succ_succAbove_succ]
        rw [h0, htail]

theorem detN_rowsOf {n : ℕ} (A : Matrix (Fin n) (Fin n) ℚ) :
    detN n (rowsOf A) = A.det := by
  induction n with
  | zero =>
      simp [rowsOf, detN, Matrix.det_fin_zero]
  | succ n ih =>
      rw [Matrix.det_succ_row_zero]
      have hrows : rowsOf A = (List.ofFn fun j => A 0 j) ::
          List.ofFn (fun i : Fin n => List.ofFn fun j => A i.succ j) := by
        rw [rowsOf, List.ofFn_succ]
      rw [hrows]
      show ((List.range (List.ofFn fun j => A 0 j).length).map
          (fun j => (-1 : ℚ) ^ j * (List.ofFn fun j => A 0 j).getD j 0 *
            detN n ((List.ofFn (fun i : Fin n => List.ofFn fun j => A i.succ j)).map
              (fun row => row.eraseIdx j)))).sum = _
      have hlen : (List.ofFn fun j => A 0 j).length = n + 1 := by simp
      rw [hlen, ← List.map_coe_finRange, List.map_map, ← List.ofFn_eq_map, List.sum_ofFn]
      refine Finset.sum_congr rfl fun j _ => ?_
      have h1 : (List.ofFn fun j => A 0 j).getD (j : ℕ) 0 = A 0 j := getD_ofFn _ 0 j
      have h2 : ((List.ofFn (fun i : Fin n => List.ofFn fun j => A i.succ j)).map
          (fun row => row.eraseIdx (j : ℕ)))
          = rowsOf (A.submatrix Fin.succ j.succAbove) := by
        rw [List.map_ofFn, rowsOf]
        congr 1
        funext i
        exact eraseIdx_ofFn (fun k => A i.succ k) j
      simp only [Function.comp, h1, h2, ih]

theorem detL_rowsOf {n : ℕ} (A : Matrix (Fin n) (Fin n) ℚ) :
    detL (rowsOf A) = A.det := by
  rw [detL, show (rowsOf A).length = n by simp [rowsOf], detN_rowsOf]

theorem lstsqVec_eq_cramer {m k : ℕ} (A : Matrix (Fin m) (Fin k) ℚ) (w : Fin m → ℚ) :
    lstsqVec A w = fun i => (Aᵀ * A).cramer (Aᵀ.mulVec w) i / (Aᵀ * A).det := by
  funext i
  rw [lstsqVec, detL_rowsOf, detL_rowsOf, Matrix.cramer_apply]

theorem mulVec_cancel {k : ℕ} {M : Matrix (Fin k) (Fin k) ℚ} (h : M.det ≠ 0)
    {u v : Fin k → ℚ} (huv : M.mulVec u = M.mulVec v) : u = v := by
  have hM : IsUnit M.det := isUnit_iff_ne_zero.2 h
  have h1 : M⁻¹ * M = 1 := Matrix.nonsing_inv_mul M hM
  calc u = (1 : Matrix (Fin k) (Fin k) ℚ).mulVec u := by rw [Matrix.one_mulVec]
    _ = (M⁻¹ * M).mulVec u := by rw [h1]
    _ = M⁻¹.mulVec (M.mulVec u) := by rw [Matrix.mulVec_mulVec]
    _ = M⁻¹.mulVec (M.mulVec v) := by rw [huv]
    _ = (M⁻¹ * M).mulVec v := by rw [Matrix.mulVec_mulVec]
    _ = v := by rw [h1, Matrix.one_mulVec]

theorem lstsqVec_eq_of_solution {m k : ℕ} (A : Matrix (Fin m) (Fin k) ℚ)
    (w : Fin m → ℚ) (x : Fin k → ℚ) (hdet : (Aᵀ * A).det ≠ 0)
    (hx : (Aᵀ * A).mulVec x = Aᵀ.mulVec w) : lstsqVec A w = x := by
  have hcr : (Aᵀ * A).cramer (Aᵀ.mulVec w) = (Aᵀ * A).det • x := by
    apply mulVec_cancel hdet
    rw [Matrix.mulVec_cramer, ← hx, Matrix.mulVec_smul]
  funext i
  rw [lstsqVec_eq_cramer, hcr]
  show ((Aᵀ * A).det • x) i / (Aᵀ * A).det = x i
  rw [Pi.smul_apply, smul_eq_mul, mul_div_cancel_left₀ _ hdet]

theorem lstsqVec_normal {m k : ℕ} (A : Matrix (Fin m) (Fin k) ℚ)
    (w : Fin m → ℚ) (hdet : (Aᵀ * A).det ≠ 0) :
    (Aᵀ * A).mulVec (lstsqVec A w) = Aᵀ.mulVec w := by
  rw [lstsqVec_eq_cramer]
  have heq : (fun i => (Aᵀ * A).cramer (Aᵀ.mulVec w) i / (Aᵀ * A).det)
      = ((Aᵀ * A).det)⁻¹ • (Aᵀ * A).cramer (Aᵀ.mulVec w) := by
    funext i
    simp [div_eq_inv_mul]
  rw [heq, Matrix.mulVec_smul, Matrix.mulVec_cramer]
  rw [smul_smul, inv_mul_cancel₀ hdet, one_smul]

theorem dotProductQ_self_nonneg {m : ℕ} (v : Fin m → ℚ) : 0 ≤ v ⬝ᵥ v :=
  Finset.sum_nonneg fun i _ => mul_self_nonneg (v i)

/-- A solution of the normal equations minimizes the squared residual. -/
theorem lstsqVec_minimizes {m k : ℕ} (A : Matrix (Fin m) (Fin k) ℚ)
    (w : Fin m → ℚ) (hdet : (Aᵀ * A).det ≠ 0) (y : Fin k → ℚ) :
    (A.mulVec (lstsqVec A w) - w) ⬝ᵥ (A.mulVec (lstsqVec A w) - w)
      ≤ (A.mulVec y - w) ⬝ᵥ (A.mulVec y - w) := by
  set x := lstsqVec A w with hxdef
  have hnorm : Aᵀ.mulVec (A.mulVec x - w) = 0 := by
    rw [Matrix.mulVec_sub, Matrix.mulVec_mulVec, lstsqVec_normal A w hdet, sub_self]
  have hsplit : A.mulVec y - w = (A.mulVec x - w) + A.mulVec (y - x) := by
    rw [Matrix.mulVec_sub]
    abel
  have hcross : (A.mulVec x - w) ⬝ᵥ A.mulVec (y - x) = 0 := by
    rw [Matrix.dotProduct_mulVec, ← Matrix.mulVec_transpose, hnorm]
    exact Matrix.zero_dotProduct _
  have hcross2 : A.mulVec (y - x) ⬝ᵥ (A.mulVec x - w) = 0 := by
    rw [Matrix.dotProduct_comm]
    exact hcross
  rw [hsplit, Matrix.add_dotProduct, Matrix.dotProduct_add, Matrix.dotProduct_add,
    hcross, hcross2]
  have hnn := dotProductQ_self_nonneg (A.mulVec (y - x))
  linarith

/-- The least-squares solution is unique when the normal matrix is regular:
any vector achieving the same squared residual equals it. -/
theorem lstsqVec_unique {m k : ℕ} (A : Matrix (Fin m) (Fin k) ℚ)
    (w : Fin m → ℚ) (hdet : (Aᵀ * A).det ≠ 0) (y : Fin k → ℚ)
    (heq : (A.mulVec y - w) ⬝ᵥ (A.mulVec y - w)
      = (A.mulVec (lstsqVec A w) - w) ⬝ᵥ (A.mulVec (lstsqVec A w) - w)) :
    y = lstsqVec A w := by
  set x := lstsqVec A w with hxdef
  have hnorm : Aᵀ.mulVec (A.mulVec x - w) = 0 := by
    rw [Matrix.mulVec_sub, Matrix.mulVec_mulVec, lstsqVec_normal A w hdet, sub_self]
  have hsplit : A.mulVec y - w = (A.mulVec x - w) + A.mulVec (y - x) := by
    rw [Matrix.mulVec_sub]
    abel
  have hcross : (A.mulVec x - w) ⬝ᵥ A.mulVec (y - x) = 0 := by
    rw [Matrix.dotProduct_mulVec, ← Matrix.mulVec_transpose, hnorm]
    exact Matrix.zero_dotProduct _
  have hcross2 : A.mulVec (y - x) ⬝ᵥ (A.mulVec x - w) = 0 := by
    rw [Matrix.dotProduct_comm]
    exact hcross
  have hzero : A.mulVec (y - x) ⬝ᵥ A.mulVec (y - x) = 0 := by
    rw [hsplit, Matrix.add_dotProduct, Matrix.dotProduct_add, Matrix.dotProduct_add,
      hcross, hcross2] at heq
    linarith
  have hvec : A.mulVec (y - x) = 0 := by
    funext i
    have hterm := (Finset.sum_eq_zero_iff_of_nonneg
      (fun i _ => mul_self_nonneg (A.mulVec (y - x) i))).1 hzero i (Finset.mem_univ i)
    exact mul_self_eq_zero.1 hterm
  have hAtA : (Aᵀ * A).mulVec (y - x) = 0 := by
    rw [← Matrix.mulVec_mulVec, hvec, Matrix.mulVec_zero]
  have : y - x = 0 := by
    apply mulVec_cancel hdet
    rw [hAtA, Matrix.mulVec_zero]
  exact sub_eq_zero.1 this

/-- Lower bounds are preserved by a fold of `min`. -/
theorem lt_foldl_min {a : ℚ} :
    ∀ (l : List ℚ) (x : ℚ), a < x → (∀ y ∈ l, a < y) → a < l.foldl min x
  | [], _, hx, _ => hx
  | y :: ys, x, hx, h => by
      rw [List.foldl_cons]
      exact lt_foldl_min ys (min x y) (lt_min hx (h y (by simp)))
        (fun z hz => h z (by simp [hz]))

/-! ## Claim theorems -/

/-- C6: lorentz_ip computes u0*v0 + u1*v1 - u2*v2 on two 3-vectors (with v
defaulting to u when omitted) and u0*v0 + u1*v1 + u2*v2 - u3*v3 on two
4-vectors; but for every other length the claim fails: the source executes
`return ValueError(...)` (line 705), so the function RETURNS the exception
object as an ordinary value instead of failing.  The last conjunct evaluates
the code at the failing input u = [1, 2]: the call returns normally, carrying
the ValueError object as its value. -/
theorem C6_lorentz_ip_formulas_and_error_object :
    (∀ a b c x y z : ℚ, lorentz_ip [a, b, c] (some [x, y, z])
      = .num (a * x + b * y - c * z))
  ∧ (∀ a b c : ℚ, lorentz_ip [a, b, c] none = .num (a * a + b * b - c * c))
  ∧ (∀ a b c d x y z w : ℚ, lorentz_ip [a, b, c, d] (some [x, y, z, w])
      = .num (a * x + b * y + c * z - d * w))
  ∧ (∀ a b c d : ℚ, lorentz_ip [a, b, c, d] none
      = .num (a * a + b * b + c * c - d * d))
  ∧ lorentz_ip [1, 2] none
      = LorentzOut.valueErrorObject "length of x should be 3 or 4, was" := by
  refine ⟨fun a b c x y z => ?_, fun a b c => ?_, fun a b c d x y z w => ?_,
    fun a b c d => ?_, by with_unfolding_all decide⟩ <;>
  · simp [lorentz_ip, List.range_succ, List.getD_cons_zero, List.getD_cons_succ]
    ring

/-- C8: when no arrival time is numerically indistinguishable from zero
(absolute value at most 1e-8, the exact meaning of np.isclose with 0), the
gillette solver raises ValueError and returns no position estimate. -/
theorem C8_gillette_no_reference_raises (receiver_positions : List (List ℚ))
    (arrival_times : List ℚ) (speed_of_sound : ℚ) (hne : arrival_times ≠ [])
    (hfar : ∀ x ∈ arrival_times, 1 / 100000000 < |x|) :
    gillette_localize receiver_positions arrival_times speed_of_sound
      = .error (.valueError gilletteRefErrMsg) := by
  match arrival_times, hne, hfar with
  | t0 :: ts, _, hfar =>
    have hmin : (1 : ℚ) / 100000000 < (ts.map fun x => |x|).foldl min |t0| := by
      apply lt_foldl_min
      · exact hfar t0 (by simp)
      · intro y hy
        rcases List.mem_map.1 hy with ⟨x, hx, rfl⟩
        exact hfar x (by simp [hx])
    have hcond : npIsCloseZero ((ts.map fun x => |x|).foldl min |t0|) = false := by
      rw [npIsCloseZero, decide_eq_false_iff_not]
      exact not_le.2 (lt_of_lt_of_le hmin (le_abs_self _))
    simp [gillette_localize, hcond]

/-- Witness for C8 at a concrete input. -/
theorem C8_witness :
    (([(1 : ℚ), 1] : List ℚ) ≠ [] ∧ ∀ x ∈ [(1 : ℚ), 1], 1 / 100000000 < |x|)
  ∧ gillette_localize [[0, 0], [10, 0]] [1, 1] 343
      = .error (.valueError gilletteRefErrMsg) :=
  ⟨⟨by with_unfolding_all decide, by with_unfolding_all decide⟩,
    C8_gillette_no_reference_raises [[0, 0], [10, 0]] [1, 1] 343
      (by with_unfolding_all decide) (by with_unfolding_all decide)⟩

/-- C9: on an event whose delays are estimated, if after discarding receivers
whose cc max does not exceed the threshold fewer than min_n_receivers tdoas
remain, estimate_location raises InsufficientReceiversError, the returned
state is the unchanged event, and position_estimate remains None.  The
statement holds for every solver (the raise happens before the solver is
chosen). -/
theorem C9_estimate_location_insufficient_receivers
    (locFn : List (List ℚ) → List ℚ → ℚ → Except PyExc (List ℚ))
    (fsqrt : ℚ → ℚ) (ev : SpatialEventState) (θ : ℚ) (min_n : ℕ) (c : ℚ)
    (hpos : ev.position_estimate = none)
    (hfew : (boolMask (ev.cc_maxs.map fun m => decide (θ < m)) ev.tdoas).length < min_n) :
    estimate_location locFn fsqrt ev (some θ) min_n c
      = (ev, .error (.insufficientReceivers
          (insufficientMsg
            (boolMask (ev.cc_maxs.map fun m => decide (θ < m)) ev.tdoas).length
            min_n)))
    ∧ (estimate_location locFn fsqrt ev (some θ) min_n c).1.position_estimate
        = none := by
  constructor
  · simp [estimate_location, hfew]
  · simp [estimate_location, hfew, hpos]

/-- Witness for C9 at a concrete event: three receivers, only the reference
survives a cc threshold of 3/5, which is fewer than min_n_receivers = 3. -/
theorem C9_witness :
    (({ receiver_files := ["a.wav", "b.wav", "c.wav"]
        receiver_positions := [[0, 0], [30, 0], [0, 40]]
        tdoas := [0, 1 / 100, 2 / 100]
        cc_maxs := [1, 1 / 2, 1 / 2]
        cc_threshold := none
        position_estimate := none
        distance_residuals := none
        residual_rms := none } : SpatialEventState).position_estimate = none
      ∧ (boolMask ((([(1 : ℚ), 1 / 2, 1 / 2]).map fun m => decide ((3 : ℚ) / 5 < m)))
          [(0 : ℚ), 1 / 100, 2 / 100]).length < 3)
  ∧ estimate_location gillette_localize id
      { receiver_files := ["a.wav", "b.wav", "c.wav"]
        receiver_positions := [[0, 0], [30, 0], [0, 40]]
        tdoas := [0, 1 / 100, 2 / 100]
        cc_maxs := [1, 1 / 2, 1 / 2]
        cc_threshold := none
        position_estimate := none
        distance_residuals := none
        residual_rms := none } (some (3 / 5)) 3 343
      = ({ receiver_files := ["a.wav", "b.wav", "c.wav"]
           receiver_positions := [[0, 0], [30, 0], [0, 40]]
           tdoas := [0, 1 / 100, 2 / 100]
           cc_maxs := [1, 1 / 2, 1 / 2]
           cc_threshold := none
           position_estimate := none
           distance_residuals := none
           residual_rms := none }, .error (.insufficientReceivers (insufficientMsg 1 3))) := by
  refine ⟨⟨rfl, by with_unfolding_all decide⟩, ?_⟩
  have h := (C9_estimate_location_insufficient_receivers gillette_localize id
    { receiver_files := ["a.wav", "b.wav", "c.wav"]
      receiver_positions := [[0, 0], [30, 0], [0, 40]]
      tdoas := [0, 1 / 100, 2 / 100]
      cc_maxs := [1, 1 / 2, 1 / 2]
      cc_threshold := none
      position_estimate := none
      distance_residuals := none
      residual_rms := none } (3 / 5) 3 343 rfl (by with_unfolding_all decide)).1
  with_unfolding_all exact h

/-- C4 (amended): if any detection file is missing from file_coords,
localize_detections fails immediately, for every possible per-event outcome
(so before any candidate-event or cross-correlation work can influence the
result), with the fixed UserWarning message; that message directs the caller
to check_files_missing_coordinates() and does not name the missing files. -/
theorem C4_missing_coordinates_fails_fast (file_coords : List (String × List ℚ))
    (detections : Detections) (r : ℚ) (min_n : ℕ) (θ : ℚ)
    (event_outcome : SpatialEventData → Except PyExc ℚ)
    (hmiss : check_files_missing_coordinates file_coords detections ≠ []) :
    localize_detections file_coords detections r min_n θ event_outcome
      = .error (.userWarning missingCoordsMsg) := by
  rw [localize_detections, if_pos (List.length_pos.2 hmiss)]

/-- Witness for the amended C4 at a concrete input. -/
theorem C4_witness :
    check_files_missing_coordinates [("a.wav", [0, 0])]
      { columns := ["sp"]
        rows := [{ file := "yy.wav", start_time := 0, end_time := 2, values := [1] }] } ≠ []
  ∧ localize_detections [("a.wav", [0, 0])]
      { columns := ["sp"]
        rows := [{ file := "yy.wav", start_time := 0, end_time := 2, values := [1] }] }
      100 3 5 (fun _ => .ok 0)
      = .error (.userWarning missingCoordsMsg) :=
  ⟨by with_unfolding_all decide,
    C4_missing_coordinates_fails_fast _ _ 100 3 5 _ (by with_unfolding_all decide)⟩

/-- C4 counterexample to the claim as stated: the error raised on a missing
file carries a fixed message that does not contain the name of the missing
file, so the failure does not name the missing file(s). -/
theorem C4_counterexample :
    localize_detections [("a.wav", [0, 0])]
      { columns := ["sp"]
        rows := [{ file := "zz.wav", start_time := 0, end_time := 2, values := [1] }] }
      100 3 5 (fun _ => .ok 0)
      = .error (.userWarning missingCoordsMsg)
  ∧ check_files_missing_coordinates [("a.wav", [0, 0])]
      { columns := ["sp"]
        rows := [{ file := "zz.wav", start_time := 0, end_time := 2, values := [1] }] }
      = ["zz.wav"]
  ∧ containsSubstr missingCoordsMsg "zz.wav" = false :=
  ⟨by with_unfolding_all rfl, by with_unfolding_all decide, by with_unfolding_all decide⟩

/-- C5 (amended): when no file is missing coordinates, localize_detections
runs the per-event loop on the candidate events, and an event whose per-event
work completes with residual value rms is placed in the localized list when
rms is STRICTLY below residual_threshold and in the unlocalized list
otherwise; in particular an event whose rms exactly equals the threshold is
rejected (source line 513 compares with `<`, not `<=`). -/
theorem C5_residual_classification_strict (file_coords : List (String × List ℚ))
    (detections : Detections) (r : ℚ) (min_n : ℕ) (θ : ℚ)
    (event_outcome : SpatialEventData → Except PyExc ℚ)
    (hmiss : check_files_missing_coordinates file_coords detections = []) :
    localize_detections file_coords detections r min_n θ event_outcome
      = localize_loop θ event_outcome
          (create_candidate_events file_coords detections min_n r)
  ∧ ∀ (ev : SpatialEventData) (rest : List SpatialEventData) (rms : ℚ),
      event_outcome ev = .ok rms →
      (rms < θ → localize_loop θ event_outcome (ev :: rest)
          = (localize_loop θ event_outcome rest).map fun p => (ev :: p.1, p.2))
      ∧ (¬ rms < θ → localize_loop θ event_outcome (ev :: rest)
          = (localize_loop θ event_outcome rest).map fun p => (p.1, ev :: p.2)) := by
  constructor
  · rw [localize_detections, if_neg]
    rw [hmiss]
    simp
  · intro ev rest rms hok
    constructor
    · intro hlt
      rw [localize_loop, hok]
      simp [hlt]
    · intro hge
      rw [localize_loop, hok]
      simp [hge]

/-- Witness for the amended C5: a three-receiver pipeline in which every
event completes with rms 7 against threshold 9 goes entirely to the
localized list. -/
theorem C5_witness :
    (check_files_missing_coordinates
      [("a.wav", [0, 0]), ("b.wav", [30, 0]), ("c.wav", [0, 40])]
      { columns := ["sp"]
        rows := [{ file := "a.wav", start_time := 0, end_time := 2, values := [1] },
                 { file := "b.wav", start_time := 0, end_time := 2, values := [1] },
                 { file := "c.wav", start_time := 0, end_time := 2, values := [1] }] } = [])
  ∧ localize_detections
      [("a.wav", [0, 0]), ("b.wav", [30, 0]), ("c.wav", [0, 40])]
      { columns := ["sp"]
        rows := [{ file := "a.wav", start_time := 0, end_time := 2, values := [1] },
                 { file := "b.wav", start_time := 0, end_time := 2, values := [1] },
                 { file := "c.wav", start_time := 0, end_time := 2, values := [1] }] }
      100 3 9 (fun _ => .ok 7)
      = localize_loop 9 (fun _ => .ok 7)
          (create_candidate_events
            [("a.wav", [0, 0]), ("b.wav", [30, 0]), ("c.wav", [0, 40])]
            { columns := ["sp"]
              rows := [{ file := "a.wav", start_time := 0, end_time := 2, values := [1] },
                       { file := "b.wav", start_time := 0, end_time := 2, values := [1] },
                       { file := "c.wav", start_time := 0, end_time := 2, values := [1] }] }
            3 100) := by
  refine ⟨by with_unfolding_all decide, ?_⟩
  exact (C5_residual_classification_strict _ _ 100 3 9 _
    (by with_unfolding_all decide)).1

/-- C5 counterexample to the claim as stated: with residual_threshold 5, all
three candidate events complete position estimation with residual_rms
exactly 5, yet the localized list is empty and every event lands in the
unlocalized list (the claim asserts an event with residual_rms equal to the
threshold is localized). -/
theorem C5_counterexample :
    localize_detections
      [("a.wav", [0, 0]), ("b.wav", [30, 0]), ("c.wav", [0, 40])]
      { columns := ["sp"]
        rows := [{ file := "a.wav", start_time := 0, end_time := 2, values := [1] },
                 { file := "b.wav", start_time := 0, end_time := 2, values := [1] },
                 { file := "c.wav", start_time := 0, end_time := 2, values := [1] }] }
      100 3 5 (fun _ => .ok 5)
      = .ok ([],
        [{ receiver_files := ["a.wav", "b.wav", "c.wav"]
           receiver_positions := [[0, 0], [30, 0], [0, 40]]
           start_time := 0, duration := 2, class_name := "sp" },
         { receiver_files := ["b.wav", "a.wav", "c.wav"]
           receiver_positions := [[30, 0], [0, 0], [0, 40]]
           start_time := 0, duration := 2, class_name := "sp" },
         { receiver_files := ["c.wav", "a.wav", "b.wav"]
           receiver_positions := [[0, 40], [0, 0], [30, 0]]
           start_time := 0, duration := 2, class_name := "sp" }])
  ∧ ((5 : ℚ) ≤ 5) := by
  exact ⟨by with_unfolding_all rfl, by with_unfolding_all decide⟩

/-- C3 (amended): when `B.T * B` is singular, soundfinder_localize does not
raise: it returns (with a warning) the Python value `[[np.nan]] * dim`, a
list of length dim each of whose entries is the ONE-ELEMENT LIST containing
NaN - not a flat position vector of NaN coordinates. -/
theorem C3_singular_returns_nested_nan (receiver_positions : List (List ℚ))
    (arrival_times : List ℚ) (speed_of_sound : ℚ) (center : Bool)
    (hdim : sfDim receiver_positions = 2 ∨ sfDim receiver_positions = 3)
    (hsing : detL (rowsOf (SF_toInvert (SF_posF receiver_positions)
      (SF_tF receiver_positions arrival_times) speed_of_sound center)) = 0) :
    soundfinder_localize receiver_positions arrival_times speed_of_sound center
      = .ok (.singular (PyVal.arr (List.replicate (sfDim receiver_positions)
          (PyVal.arr [PyVal.num PyNum.nan])))) := by
  rw [soundfinder_localize, soundfinder_core]
  rw [if_pos hdim, if_pos hsing]

set_option maxRecDepth 100000 in
/-- Witness for the amended C3: four colinear receivers with zero delays make
B.T * B singular, and the nested-NaN value is returned. -/
theorem C3_witness :
    ((sfDim [[0, 0], [1, 0], [2, 0], [3, 0]] = 2 ∨ sfDim [[0, 0], [1, 0], [2, 0], [3, 0]] = 3)
      ∧ detL (rowsOf (SF_toInvert (SF_posF [[0, 0], [1, 0], [2, 0], [3, 0]])
          (SF_tF [[0, 0], [1, 0], [2, 0], [3, 0]] [0, 0, 0, 0]) 343 true)) = 0)
  ∧ soundfinder_localize [[0, 0], [1, 0], [2, 0], [3, 0]] [0, 0, 0, 0] 343 true
      = .ok (.singular (PyVal.arr (List.replicate (sfDim [[0, 0], [1, 0], [2, 0], [3, 0]])
          (PyVal.arr [PyVal.num PyNum.nan])))) :=
  ⟨⟨by with_unfolding_all decide, by with_unfolding_all decide⟩,
    C3_singular_returns_nested_nan [[0, 0], [1, 0], [2, 0], [3, 0]] [0, 0, 0, 0] 343 true
      (by with_unfolding_all decide) (by with_unfolding_all decide)⟩

set_option maxRecDepth 100000 in
/-- C3 counterexample to the claim as stated: on a degenerate (colinear)
configuration the returned value has length dim, but its entries are
one-element lists containing NaN, not NaN coordinates, so it is not a
position vector whose every coordinate is NaN. -/
theorem C3_counterexample :
    soundfinder_localize [[0, 0], [1, 0], [2, 0], [3, 0]] [0, 0, 0, 0] 343 true
      = .ok (.singular (PyVal.arr [PyVal.arr [PyVal.num PyNum.nan],
          PyVal.arr [PyVal.num PyNum.nan]]))
  ∧ ¬ (∀ x ∈ [PyVal.arr [PyVal.num PyNum.nan], PyVal.arr [PyVal.num PyNum.nan]],
        x = PyVal.num PyNum.nan) := by
  constructor
  · with_unfolding_all rfl
  · intro h
    have hx := h (PyVal.arr [PyVal.num PyNum.nan]) (by simp)
    simp at hx

theorem le_foldl_min {a : ℚ} :
    ∀ (l : List ℚ) (x : ℚ), a ≤ x → (∀ y ∈ l, a ≤ y) → a ≤ l.foldl min x
  | [], _, hx, _ => hx
  | y :: ys, x, hx, h => by
      rw [List.foldl_cons]
      exact le_foldl_min ys (min x y) (le_min hx (h y (by simp)))
        (fun z hz => h z (by simp [hz]))

theorem foldl_min_le_init : ∀ (l : List ℚ) (x : ℚ), l.foldl min x ≤ x
  | [], x => le_refl x
  | y :: ys, x => by
      rw [List.foldl_cons]
      exact le_trans (foldl_min_le_init ys (min x y)) (min_le_left x y)

theorem foldl_min_le_mem : ∀ (l : List ℚ) (x z : ℚ), z ∈ l → l.foldl min x ≤ z
  | [], _, _, hz => absurd hz (List.not_mem_nil _)
  | y :: ys, x, z, hz => by
      rw [List.foldl_cons]
      rcases List.mem_cons.1 hz with rfl | hz'
      · exact le_trans (foldl_min_le_init ys (min x z)) (min_le_right x z)
      · exact foldl_min_le_mem ys (min x y) z hz'

/-- The reference check of gillette_localize passes whenever some arrival
time has absolute value at most 1e-8. -/
theorem gillette_check_passes (t0 : ℚ) (ts : List ℚ)
    (href : ∃ x ∈ t0 :: ts, |x| ≤ 1 / 100000000) :
    npIsCloseZero ((ts.map fun x => |x|).foldl min |t0|) = true := by
  rw [npIsCloseZero, decide_eq_true_eq]
  obtain ⟨x, hx, hxe⟩ := href
  have hnn : 0 ≤ (ts.map fun x => |x|).foldl min |t0| :=
    le_foldl_min _ _ (abs_nonneg t0)
      (fun y hy => by
        rcases List.mem_map.1 hy with ⟨z, _, rfl⟩
        exact abs_nonneg z)
  rw [abs_of_nonneg hnn]
  rcases List.mem_cons.1 hx with rfl | hx'
  · exact le_trans (foldl_min_le_init _ _) hxe
  · exact le_trans (foldl_min_le_mem _ _ _ (List.mem_map.2 ⟨x, hx', rfl⟩)) hxe

/-- C2: gillette_localize, after reordering receivers and tdoas so the
numerically-zero entry is first, builds exactly the system the spec
describes (specGilletteA, specGilletteW: spatial columns pos0[d] - posm[d],
final column tdoa_m * c, right side 0.5*(tdoa_m*c + |pos0|^2 - |posm|^2)),
solves it by least squares, and returns exactly the first dim components of
the least-squares solution: the returned list is the prefix of the solution
vector, which minimizes the squared residual of the spec system and is the
unique minimizer when the normal matrix is regular. -/
theorem C2_gillette_builds_spec_system_and_solves
    (receiver_positions : List (List ℚ)) (t0 : ℚ) (ts : List ℚ) (c : ℚ)
    (href : ∃ x ∈ t0 :: ts, |x| ≤ 1 / 100000000)
    (hdet : detL (rowsOf
      ((specGilletteA (G_posF receiver_positions (ts.length + 1))
          (G_tF (t0 :: ts) (ts.length + 1)) c)ᵀ *
        specGilletteA (G_posF receiver_positions (ts.length + 1))
          (G_tF (t0 :: ts) (ts.length + 1)) c)) ≠ 0) :
    gillette_localize receiver_positions (t0 :: ts) c
      = .ok ((List.ofFn (lstsqVec
          (specGilletteA (G_posF receiver_positions (ts.length + 1))
            (G_tF (t0 :: ts) (ts.length + 1)) c)
          (specGilletteW (G_posF receiver_positions (ts.length + 1))
            (G_tF (t0 :: ts) (ts.length + 1)) c))).take
          (receiver_positions.getD 0 []).length)
  ∧ (∀ y,
      ((specGilletteA (G_posF receiver_positions (ts.length + 1))
          (G_tF (t0 :: ts) (ts.length + 1)) c).mulVec
        (lstsqVec (specGilletteA (G_posF receiver_positions (ts.length + 1))
            (G_tF (t0 :: ts) (ts.length + 1)) c)
          (specGilletteW (G_posF receiver_positions (ts.length + 1))
            (G_tF (t0 :: ts) (ts.length + 1)) c))
        - specGilletteW (G_posF receiver_positions (ts.length + 1))
            (G_tF (t0 :: ts) (ts.length + 1)) c) ⬝ᵥ
      ((specGilletteA (G_posF receiver_positions (ts.length + 1))
          (G_tF (t0 :: ts) (ts.length + 1)) c).mulVec
        (lstsqVec (specGilletteA (G_posF receiver_positions (ts.length + 1))
            (G_tF (t0 :: ts) (ts.length + 1)) c)
          (specGilletteW (G_posF receiver_positions (ts.length + 1))
            (G_tF (t0 :: ts) (ts.length + 1)) c))
        - specGilletteW (G_posF receiver_positions (ts.length + 1))
            (G_tF (t0 :: ts) (ts.length + 1)) c)
      ≤ ((specGilletteA (G_posF receiver_positions (ts.length + 1))
          (G_tF (t0 :: ts) (ts.length + 1)) c).mulVec y
        - specGilletteW (G_posF receiver_positions (ts.length + 1))
            (G_tF (t0 :: ts) (ts.length + 1)) c) ⬝ᵥ
        ((specGilletteA (G_posF receiver_positions (ts.length + 1))
          (G_tF (t0 :: ts) (ts.length + 1)) c).mulVec y
        - specGilletteW (G_posF receiver_positions (ts.length + 1))
            (G_tF (t0 :: ts) (ts.length + 1)) c))
  ∧ (∀ y,
      ((specGilletteA (G_posF receiver_positions (ts.length + 1))
          (G_tF (t0 :: ts) (ts.length + 1)) c).mulVec y
        - specGilletteW (G_posF receiver_positions (ts.length + 1))
            (G_tF (t0 :: ts) (ts.length + 1)) c) ⬝ᵥ
      ((specGilletteA (G_posF receiver_positions (ts.length + 1))
          (G_tF (t0 :: ts) (ts.length + 1)) c).mulVec y
        - specGilletteW (G_posF receiver_positions (ts.length + 1))
            (G_tF (t0 :: ts) (ts.length + 1)) c)
      = ((specGilletteA (G_posF receiver_positions (ts.length + 1))
          (G_tF (t0 :: ts) (ts.length + 1)) c).mulVec
        (lstsqVec (specGilletteA (G_posF receiver_positions (ts.length + 1))
            (G_tF (t0 :: ts) (ts.length + 1)) c)
          (specGilletteW (G_posF receiver_positions (ts.length + 1))
            (G_tF (t0 :: ts) (ts.length + 1)) c))
        - specGilletteW (G_posF receiver_positions (ts.length + 1))
            (G_tF (t0 :: ts) (ts.length + 1)) c) ⬝ᵥ
        ((specGilletteA (G_posF receiver_positions (ts.length + 1))
          (G_tF (t0 :: ts) (ts.length + 1)) c).mulVec
        (lstsqVec (specGilletteA (G_posF receiver_positions (ts.length + 1))
            (G_tF (t0 :: ts) (ts.length + 1)) c)
          (specGilletteW (G_posF receiver_positions (ts.length + 1))
            (G_tF (t0 :: ts) (ts.length + 1)) c))
        - specGilletteW (G_posF receiver_positions (ts.length + 1))
            (G_tF (t0 :: ts) (ts.length + 1)) c)
      → y = lstsqVec (specGilletteA (G_posF receiver_positions (ts.length + 1))
            (G_tF (t0 :: ts) (ts.length + 1)) c)
          (specGilletteW (G_posF receiver_positions (ts.length + 1))
            (G_tF (t0 :: ts) (ts.length + 1)) c)) := by
  have hdet' : ((specGilletteA (G_posF receiver_positions (ts.length + 1))
      (G_tF (t0 :: ts) (ts.length + 1)) c)ᵀ *
    specGilletteA (G_posF receiver_positions (ts.length + 1))
      (G_tF (t0 :: ts) (ts.length + 1)) c).det ≠ 0 := by
    rw [← detL_rowsOf]
    exact hdet
  refine ⟨?_, fun y => lstsqVec_minimizes _ _ hdet' y, fun y h => lstsqVec_unique _ _ hdet' y h⟩
  rw [gillette_localize]
  rw [if_pos (gillette_check_passes t0 ts href)]
  rfl

set_option maxRecDepth 100000 in
/-- Witness for C2 at a concrete nondegenerate input. -/
theorem C2_witness :
    ((∃ x ∈ [(0 : ℚ), 1 / 100, 2 / 100, 1 / 100], |x| ≤ 1 / 100000000)
      ∧ detL (rowsOf ((specGilletteA (G_posF [[0, 0], [10, 0], [0, 10], [10, 10]] 4)
            (G_tF [0, 1 / 100, 2 / 100, 1 / 100] 4) 343)ᵀ *
          specGilletteA (G_posF [[0, 0], [10, 0], [0, 10], [10, 10]] 4)
            (G_tF [0, 1 / 100, 2 / 100, 1 / 100] 4) 343)) ≠ 0)
  ∧ gillette_localize [[0, 0], [10, 0], [0, 10], [10, 10]]
      [0, 1 / 100, 2 / 100, 1 / 100] 343
      = .ok ((List.ofFn (lstsqVec
          (specGilletteA (G_posF [[0, 0], [10, 0], [0, 10], [10, 10]] 4)
            (G_tF [0, 1 / 100, 2 / 100, 1 / 100] 4) 343)
          (specGilletteW (G_posF [[0, 0], [10, 0], [0, 10], [10, 10]] 4)
            (G_tF [0, 1 / 100, 2 / 100, 1 / 100] 4) 343))).take 2) := by
  refine ⟨⟨by with_unfolding_all decide, by with_unfolding_all decide⟩, ?_⟩
  exact (C2_gillette_builds_spec_system_and_solves [[0, 0], [10, 0], [0, 10], [10, 10]]
    0 [1 / 100, 2 / 100, 1 / 100] 343
    (by with_unfolding_all decide) (by with_unfolding_all decide)).1

set_option maxRecDepth 100000 in
/-- C1: the claim fails on the code, and the code contradicts its own
comment.  With receivers at (3,4), (6,8), (5,12), (8,6), a source at the
origin and speed of sound 1, the receiver distances are exactly 5, 10, 13,
10 (first conjunct, via the real square root of the squared distances), so
the analytically computed tdoas (distance_i - distance_0)/c are exactly
[0, 5, 8, 5] (second conjunct).  Feeding them into gillette_localize returns
(-10, -10), not the true source (0, 0): the code builds the right side
w = 0.5*(dmx + X02 - XM2) with dmx unsquared, although its own comment
(line 985) and the cited Gillette-Silverman paper require dmx squared. -/
theorem C1_gillette_misses_true_source :
    (Real.sqrt ((sqDistL [3, 4] [0, 0] : ℚ) : ℝ) = 5
      ∧ Real.sqrt ((sqDistL [6, 8] [0, 0] : ℚ) : ℝ) = 10
      ∧ Real.sqrt ((sqDistL [5, 12] [0, 0] : ℚ) : ℝ) = 13
      ∧ Real.sqrt ((sqDistL [8, 6] [0, 0] : ℚ) : ℝ) = 10)
  ∧ ([(0 : ℚ), 5, 8, 5]
      = [(5 - 5) / 1, (10 - 5) / 1, (13 - 5) / 1, (10 - 5) / 1])
  ∧ gillette_localize [[3, 4], [6, 8], [5, 12], [8, 6]] [0, 5, 8, 5] 1
      = .ok [-10, -10]
  ∧ ([(-10 : ℚ), -10] ≠ [0, 0]) := by
  refine ⟨⟨?_, ?_, ?_, ?_⟩, by norm_num, by with_unfolding_all rfl,
    by with_unfolding_all decide⟩
  · rw [show sqDistL [3, 4] [0, 0] = 25 from by with_unfolding_all decide]
    rw [show ((25 : ℚ) : ℝ) = 5 ^ 2 by norm_num]
    exact Real.sqrt_sq (by norm_num)
  · rw [show sqDistL [6, 8] [0, 0] = 100 from by with_unfolding_all decide]
    rw [show ((100 : ℚ) : ℝ) = 10 ^ 2 by norm_num]
    exact Real.sqrt_sq (by norm_num)
  · rw [show sqDistL [5, 12] [0, 0] = 169 from by with_unfolding_all decide]
    rw [show ((169 : ℚ) : ℝ) = 13 ^ 2 by norm_num]
    exact Real.sqrt_sq (by norm_num)
  · rw [show sqDistL [8, 6] [0, 0] = 100 from by with_unfolding_all decide]
    rw [show ((100 : ℚ) : ℝ) = 10 ^ 2 by norm_num]
    exact Real.sqrt_sq (by norm_num)

theorem sqDistL_nonneg (a b : List ℚ) : 0 ≤ sqDistL a b :=
  List.sum_nonneg fun x hx => by
    rcases List.mem_map.1 hx with ⟨p, _, rfl⟩
    exact sq_nonneg _

theorem sqDistL_comm : ∀ (a b : List ℚ), sqDistL a b = sqDistL b a
  | [], b => by cases b <;> simp [sqDistL]
  | a :: as, [] => by simp [sqDistL]
  | a :: as, b :: bs => by
      have h := sqDistL_comm as bs
      simp only [sqDistL, List.zip_cons_cons, List.map_cons, List.sum_cons] at h ⊢
      rw [show (a - b) ^ 2 = (b - a) ^ 2 by ring, h]

theorem sqrtLeQ_iff_sqrt_le (s r : ℚ) (hs : 0 ≤ s) :
    sqrtLeQ s r = true ↔ Real.sqrt (s : ℝ) ≤ (r : ℝ) := by
  rw [sqrtLeQ, Bool.and_eq_true, decide_eq_true_eq, decide_eq_true_eq]
  constructor
  · rintro ⟨h0, hsr⟩
    have h1 : (s : ℝ) ≤ (r : ℝ) * (r : ℝ) := by exact_mod_cast hsr
    have h2 : (0 : ℝ) ≤ (r : ℝ) := by exact_mod_cast h0
    calc Real.sqrt (s : ℝ) ≤ Real.sqrt ((r : ℝ) * (r : ℝ)) := Real.sqrt_le_sqrt h1
      _ = (r : ℝ) := Real.sqrt_mul_self h2
  · intro h
    have h0 : (0 : ℝ) ≤ (r : ℝ) := le_trans (Real.sqrt_nonneg _) h
    have hsR : (0 : ℝ) ≤ (s : ℝ) := by exact_mod_cast hs
    refine ⟨by exact_mod_cast h0, ?_⟩
    have hle : (s : ℝ) ≤ (r : ℝ) * (r : ℝ) := by
      calc (s : ℝ) = Real.sqrt (s : ℝ) * Real.sqrt (s : ℝ) := (Real.mul_self_sqrt hsR).symm
        _ ≤ (r : ℝ) * (r : ℝ) := mul_le_mul h h (Real.sqrt_nonneg _) h0
    exact_mod_cast hle

theorem lookup_map_body {β : Type} (F : String × List ℚ → β) :
    ∀ (l : List (String × List ℚ)), (l.map Prod.fst).Nodup →
      ∀ (f : String) (pf : List ℚ), (f, pf) ∈ l →
      ((l.map fun p => (p.1, F p)).lookup f) = some (F (f, pf))
  | [], _, f, pf, hmem => absurd hmem (List.not_mem_nil _)
  | a :: l, hnd, f, pf, hmem => by
      rw [List.map_cons, List.lookup_cons]
      have hnd2 : (a.1 :: l.map Prod.fst).Nodup := by
        rw [List.map_cons] at hnd
        exact hnd
      have hnd' := List.nodup_cons.1 hnd2
      rcases List.mem_cons.1 hmem with heq | hmem'
      · subst heq
        simp
      · have hf : f ≠ a.1 := by
          intro h
          exact hnd'.1 (h ▸ List.mem_map.2 ⟨(f, pf), hmem', rfl⟩)
        rw [show (f == a.1) = false from beq_eq_false_iff_ne.2 hf]
        exact lookup_map_body F l hnd'.2 f pf hmem'

theorem lookup_map_body_none {β : Type} (F : String × List ℚ → β) :
    ∀ (l : List (String × List ℚ)) (f : String), f ∉ l.map Prod.fst →
      ((l.map fun p => (p.1, F p)).lookup f) = none
  | [], _, _ => rfl
  | a :: l, f, hf => by
      rw [List.map_cons, List.lookup_cons]
      have h1 : f ≠ a.1 := fun h => hf (by simp [h])
      rw [show (f == a.1) = false from beq_eq_false_iff_ne.2 h1]
      exact lookup_map_body_none F l f (fun h => hf (by simp [h]))

theorem nodup_keys_unique : ∀ (l : List (String × List ℚ)),
    (l.map Prod.fst).Nodup → ∀ (g : String) (x y : List ℚ),
      (g, x) ∈ l → (g, y) ∈ l → x = y
  | [], _, g, x, y, hx, _ => absurd hx (List.not_mem_nil _)
  | a :: l, hnd, g, x, y, hx, hy => by
      have hnd2 : (a.1 :: l.map Prod.fst).Nodup := by
        rw [List.map_cons] at hnd
        exact hnd
      have hnd' := List.nodup_cons.1 hnd2
      rcases List.mem_cons.1 hx with hex | hx'
      · rcases List.mem_cons.1 hy with hey | hy'
        · have h := hex.trans hey.symm
          simpa using h
        · exfalso
          apply hnd'.1
          rw [← hex]
          exact List.mem_map.2 ⟨(g, y), hy', rfl⟩
      · rcases List.mem_cons.1 hy with hey | hy'
        · exfalso
          apply hnd'.1
          rw [← hey]
          exact List.mem_map.2 ⟨(g, x), hx', rfl⟩
        · exact nodup_keys_unique l hnd'.2 g x y hx' hy'

theorem mem_nearbyEntry_iff (fc : List (String × List ℚ)) (r : ℚ)
    (hnd : (fc.map Prod.fst).Nodup) (f g : String) (pf pg : List ℚ)
    (hg : (g, pg) ∈ fc) (hfg : g ≠ f) :
    (g ∈ nearbyEntry fc r (f, pf) ↔ sqrtLeQ (sqDistL pg pf) r = true) := by
  rw [nearbyEntry]
  constructor
  · intro hmem
    rcases List.mem_map.1 hmem with ⟨q, hq, hq1⟩
    rcases List.mem_filter.1 hq with ⟨hq2, hcond⟩
    rcases List.mem_filter.1 hq2 with ⟨hqfc, _⟩
    have hqeq : q = (g, q.2) := by
      rw [← hq1]
    have hq2pg : q.2 = pg := by
      apply nodup_keys_unique fc hnd g q.2 pg _ hg
      rw [← hqeq]
      exact hqfc
    rw [hq2pg] at hcond
    exact hcond
  · intro hcond
    apply List.mem_map.2
    refine ⟨(g, pg), List.mem_filter.2 ⟨List.mem_filter.2 ⟨hg, ?_⟩, hcond⟩, rfl⟩
    simp [hfg]

/-- C10: the nearby-receiver dictionary has an entry for every file of
file_coords (and only those, in order); no file appears in its own nearby
list; and for distinct files f, g (with unique keys) the nearby relation is
symmetric and holds exactly when the Euclidean distance between their
receivers is at most r_max. -/
theorem C10_nearby_dict_properties (fc : List (String × List ℚ)) (r : ℚ)
    (hnd : (fc.map Prod.fst).Nodup) :
    ((make_nearby_files_dict fc r).map Prod.fst = fc.map Prod.fst)
  ∧ (∀ f : String, f ∉ ((make_nearby_files_dict fc r).lookup f).getD [])
  ∧ (∀ (f g : String) (pf pg : List ℚ), (f, pf) ∈ fc → (g, pg) ∈ fc → f ≠ g →
      ((g ∈ ((make_nearby_files_dict fc r).lookup f).getD []
          ↔ f ∈ ((make_nearby_files_dict fc r).lookup g).getD [])
        ∧ (g ∈ ((make_nearby_files_dict fc r).lookup f).getD []
          ↔ Real.sqrt ((sqDistL pg pf : ℚ) : ℝ) ≤ (r : ℝ)))) := by
  refine ⟨?_, ?_, ?_⟩
  · rw [make_nearby_files_dict, List.map_map]
    exact List.map_congr_left fun a _ => rfl
  · intro f
    by_cases hf : f ∈ fc.map Prod.fst
    · rcases List.mem_map.1 hf with ⟨p, hp, rfl⟩
      rw [make_nearby_files_dict,
        lookup_map_body (nearbyEntry fc r) fc hnd p.1 p.2 (by rwa [Prod.mk.eta])]
      rw [Option.getD_some]
      intro hmem
      rcases List.mem_map.1 hmem with ⟨q, hq, hq1⟩
      rcases List.mem_filter.1 hq with ⟨hq2, _⟩
      rcases List.mem_filter.1 hq2 with ⟨_, hqne⟩
      rw [hq1] at hqne
      simp at hqne
    · rw [make_nearby_files_dict, lookup_map_body_none (nearbyEntry fc r) fc f hf]
      simp
  · intro f g pf pg hf hg hfg
    have hchar1 : (g ∈ ((make_nearby_files_dict fc r).lookup f).getD []
        ↔ sqrtLeQ (sqDistL pg pf) r = true) := by
      rw [make_nearby_files_dict, lookup_map_body (nearbyEntry fc r) fc hnd f pf hf,
        Option.getD_some]
      exact mem_nearbyEntry_iff fc r hnd f g pf pg hg (Ne.symm hfg)
    have hchar2 : (f ∈ ((make_nearby_files_dict fc r).lookup g).getD []
        ↔ sqrtLeQ (sqDistL pf pg) r = true) := by
      rw [make_nearby_files_dict, lookup_map_body (nearbyEntry fc r) fc hnd g pg hg,
        Option.getD_some]
      exact mem_nearbyEntry_iff fc r hnd g f pg pf hf hfg
    constructor
    · rw [hchar1, hchar2, sqDistL_comm]
    · rw [hchar1]
      exact sqrtLeQ_iff_sqrt_le _ _ (sqDistL_nonneg pg pf)

/-- Witness for C10 at a concrete two-receiver table. -/
theorem C10_witness :
    ((([("a.wav", [0, 0]), ("b.wav", [3, 4])] : List (String × List ℚ)).map Prod.fst).Nodup)
  ∧ (((make_nearby_files_dict [("a.wav", [0, 0]), ("b.wav", [3, 4])] 6).map Prod.fst
        = ([("a.wav", [0, 0]), ("b.wav", [3, 4])] : List (String × List ℚ)).map Prod.fst)
      ∧ (∀ f : String,
          f ∉ ((make_nearby_files_dict [("a.wav", [0, 0]), ("b.wav", [3, 4])] 6).lookup f).getD [])
      ∧ (∀ (f g : String) (pf pg : List ℚ),
          (f, pf) ∈ ([("a.wav", [0, 0]), ("b.wav", [3, 4])] : List (String × List ℚ)) →
          (g, pg) ∈ ([("a.wav", [0, 0]), ("b.wav", [3, 4])] : List (String × List ℚ)) →
          f ≠ g →
          ((g ∈ ((make_nearby_files_dict [("a.wav", [0, 0]), ("b.wav", [3, 4])] 6).lookup f).getD []
              ↔ f ∈ ((make_nearby_files_dict [("a.wav", [0, 0]), ("b.wav", [3, 4])] 6).lookup g).getD [])
            ∧ (g ∈ ((make_nearby_files_dict [("a.wav", [0, 0]), ("b.wav", [3, 4])] 6).lookup f).getD []
              ↔ Real.sqrt ((sqDistL pg pf : ℚ) : ℝ) ≤ ((6 : ℚ) : ℝ))))) :=
  ⟨by decide, C10_nearby_dict_properties [("a.wav", [0, 0]), ("b.wav", [3, 4])] 6 (by decide)⟩

/-- C7: four distinct receivers pairwise within max_receiver_dist, all with a
positive detection of the same class at the same time window, yield exactly
four candidate events with min_n_receivers = 3 - one per choice of reference
receiver - each whose receiver_files list is the reference followed by the
other three detecting receivers in detection order, with matching positions,
start time, duration and class. -/
theorem C7_four_receivers_four_events (f0 f1 f2 f3 : String)
    (p0 p1 p2 p3 : List ℚ) (t0 t1 : ℚ) (cls : String) (r : ℚ)
    (h01 : f0 ≠ f1) (h02 : f0 ≠ f2) (h03 : f0 ≠ f3)
    (h12 : f1 ≠ f2) (h13 : f1 ≠ f3) (h23 : f2 ≠ f3)
    (d01 : sqrtLeQ (sqDistL p0 p1) r = true)
    (d02 : sqrtLeQ (sqDistL p0 p2) r = true)
    (d03 : sqrtLeQ (sqDistL p0 p3) r = true)
    (d12 : sqrtLeQ (sqDistL p1 p2) r = true)
    (d13 : sqrtLeQ (sqDistL p1 p3) r = true)
    (d23 : sqrtLeQ (sqDistL p2 p3) r = true) :
    create_candidate_events [(f0, p0), (f1, p1), (f2, p2), (f3, p3)]
      { columns := [cls]
        rows := [{ file := f0, start_time := t0, end_time := t1, values := [1] },
                 { file := f1, start_time := t0, end_time := t1, values := [1] },
                 { file := f2, start_time := t0, end_time := t1, values := [1] },
                 { file := f3, start_time := t0, end_time := t1, values := [1] }] }
      3 r
    = [{ receiver_files := [f0, f1, f2, f3], receiver_positions := [p0, p1, p2, p3]
         start_time := t0, duration := t1 - t0, class_name := cls },
       { receiver_files := [f1, f0, f2, f3], receiver_positions := [p1, p0, p2, p3]
         start_time := t0, duration := t1 - t0, class_name := cls },
       { receiver_files := [f2, f0, f1, f3], receiver_positions := [p2, p0, p1, p3]
         start_time := t0, duration := t1 - t0, class_name := cls },
       { receiver_files := [f3, f0, f1, f2], receiver_positions := [p3, p0, p1, p2]
         start_time := t0, duration := t1 - t0, class_name := cls }] := by
  have b01 : (f0 == f1) = false := beq_eq_false_iff_ne.2 h01
  have b02 : (f0 == f2) = false := beq_eq_false_iff_ne.2 h02
  have b03 : (f0 == f3) = false := beq_eq_false_iff_ne.2 h03
  have b12 : (f1 == f2) = false := beq_eq_false_iff_ne.2 h12
  have b13 : (f1 == f3) = false := beq_eq_false_iff_ne.2 h13
  have b23 : (f2 == f3) = false := beq_eq_false_iff_ne.2 h23
  have b10 : (f1 == f0) = false := beq_eq_false_iff_ne.2 (Ne.symm h01)
  have b20 : (f2 == f0) = false := beq_eq_false_iff_ne.2 (Ne.symm h02)
  have b30 : (f3 == f0) = false := beq_eq_false_iff_ne.2 (Ne.symm h03)
  have b21 : (f2 == f1) = false := beq_eq_false_iff_ne.2 (Ne.symm h12)
  have b31 : (f3 == f1) = false := beq_eq_false_iff_ne.2 (Ne.symm h13)
  have b32 : (f3 == f2) = false := beq_eq_false_iff_ne.2 (Ne.symm h23)
  have d10 : sqrtLeQ (sqDistL p1 p0) r = true := by rw [sqDistL_comm]; exact d01
  have d20 : sqrtLeQ (sqDistL p2 p0) r = true := by rw [sqDistL_comm]; exact d02
  have d30 : sqrtLeQ (sqDistL p3 p0) r = true := by rw [sqDistL_comm]; exact d03
  have d21 : sqrtLeQ (sqDistL p2 p1) r = true := by rw [sqDistL_comm]; exact d12
  have d31 : sqrtLeQ (sqDistL p3 p1) r = true := by rw [sqDistL_comm]; exact d13
  have d32 : sqrtLeQ (sqDistL p3 p2) r = true := by rw [sqDistL_comm]; exact d23
  have hone : (decide ((0 : ℚ) < (1 : ℚ))) = true := by with_unfolding_all decide
  simp only [create_candidate_events, make_nearby_files_dict, nearbyEntry,
    List.map_cons, List.map_nil, List.enum, List.enumFrom, List.flatMap_cons,
    List.flatMap_nil, List.filter_cons, List.filter_nil, List.getD_cons_zero,
    hone, bne, b01, b02, b03, b12, b13, b23, b10, b20, b30, b21, b31, b32,
    beq_self_eq_true, Bool.not_false, Bool.not_true, if_true, if_false,
    d01, d02, d03, d12, d13, d23, d10, d20, d30, d21, d31, d32,
    uniqueFirst, uniqueFirstAux, List.contains_cons, List.contains_nil,
    Bool.or_false, Bool.or_true, Bool.false_or, Bool.true_or,
    sortQ, insertSortedQ, List.foldr_cons, List.foldr_nil,
    List.lookup_cons, List.filterMap_cons, List.length_cons, List.length_nil,
    Option.getD_some, List.append_nil, List.nil_append]
  simp [List.filter_cons, List.filterMap_cons, insertSortedQ, uniqueFirstAux,
    b01, b02, b03, b12, b13, b23, b10, b20, b30, b21, b31, b32,
    d01, d02, d03, d12, d13, d23, d10, d20, d30, d21, d31, d32,
    h01, h02, h03, h12, h13, h23,
    (Ne.symm h01), (Ne.symm h02), (Ne.symm h03), (Ne.symm h12), (Ne.symm h13), (Ne.symm h23)]

/-- Witness for C7 at a concrete four-receiver configuration. -/
theorem C7_witness :
    (("a.wav" : String) ≠ "b.wav" ∧ ("a.wav" : String) ≠ "c.wav"
      ∧ ("a.wav" : String) ≠ "d.wav" ∧ ("b.wav" : String) ≠ "c.wav"
      ∧ ("b.wav" : String) ≠ "d.wav" ∧ ("c.wav" : String) ≠ "d.wav"
      ∧ sqrtLeQ (sqDistL [0, 0] [30, 0]) 100 = true
      ∧ sqrtLeQ (sqDistL [0, 0] [0, 40]) 100 = true
      ∧ sqrtLeQ (sqDistL [0, 0] [30, 40]) 100 = true
      ∧ sqrtLeQ (sqDistL [30, 0] [0, 40]) 100 = true
      ∧ sqrtLeQ (sqDistL [30, 0] [30, 40]) 100 = true
      ∧ sqrtLeQ (sqDistL [0, 40] [30, 40]) 100 = true)
  ∧ create_candidate_events
      [("a.wav", [0, 0]), ("b.wav", [30, 0]), ("c.wav", [0, 40]), ("d.wav", [30, 40])]
      { columns := ["sp"]
        rows := [{ file := "a.wav", start_time := 0, end_time := 2, values := [1] },
                 { file := "b.wav", start_time := 0, end_time := 2, values := [1] },
                 { file := "c.wav", start_time := 0, end_time := 2, values := [1] },
                 { file := "d.wav", start_time := 0, end_time := 2, values := [1] }] }
      3 100
      = [{ receiver_files := ["a.wav", "b.wav", "c.wav", "d.wav"]
           receiver_positions := [[0, 0], [30, 0], [0, 40], [30, 40]]
           start_time := 0, duration := 2 - 0, class_name := "sp" },
         { receiver_files := ["b.wav", "a.wav", "c.wav", "d.wav"]
           receiver_positions := [[30, 0], [0, 0], [0, 40], [30, 40]]
           start_time := 0, duration := 2 - 0, class_name := "sp" },
         { receiver_files := ["c.wav", "a.wav", "b.wav", "d.wav"]
           receiver_positions := [[0, 40], [0, 0], [30, 0], [30, 40]]
           start_time := 0, duration := 2 - 0, class_name := "sp" },
         { receiver_files := ["d.wav", "a.wav", "b.wav", "c.wav"]
           receiver_positions := [[30, 40], [0, 0], [30, 0], [0, 40]]
           start_time := 0, duration := 2 - 0, class_name := "sp" }] := by
  refine ⟨⟨by decide, by decide, by decide, by decide, by decide, by decide,
    by with_unfolding_all decide, by with_unfolding_all decide,
    by with_unfolding_all decide, by with_unfolding_all decide,
    by with_unfolding_all decide, by with_unfolding_all decide⟩, ?_⟩
  exact C7_four_receivers_four_events "a.wav" "b.wav" "c.wav" "d.wav"
    [0, 0] [30, 0] [0, 40] [30, 40] 0 2 "sp" 100
    (by decide) (by decide) (by decide) (by decide) (by decide) (by decide)
    (by with_unfolding_all decide) (by with_unfolding_all decide)
    (by with_unfolding_all decide) (by with_unfolding_all decide)
    (by with_unfolding_all decide) (by with_unfolding_all decide)
